import Mathlib

/-!
Shallow embedding of the OAuth2/PKCE token-lifecycle core of the etsy-mcp
server (src/services/tokenStorage.ts, src/services/oauthServer.ts,
src/services/etsyApi.ts, src/services/mcpServer.ts), together with theorems
settling the specification claims about it.

Modelling conventions:
- JavaScript timestamps (`Date.now()`, `expires_at`, `createdAt`) are `Nat`
  milliseconds.
- JavaScript truthiness of optional numbers/strings is modelled explicitly:
  `undefined`, `0` and `""` are falsy.
- File-system operations (`fs.writeFileSync`, `fs.unlinkSync`,
  `fs.readFileSync`) are parameterised by an outcome `FsRes`: success, or an
  error whose `code` is `EROFS`, `EACCES`, or anything else. A thrown
  JavaScript exception is an `Except.error`.
- The outcome of an outbound HTTP token exchange is an explicit parameter
  (`RefreshOutcome` / `ExchangeOutcome`).
-/

/-- Error code classification used by the `catch` blocks of tokenStorage.ts:
`error.code === 'EROFS' || error.code === 'EACCES'` versus anything else. -/
inductive FsErr
  | erofs
  | eacces
  | other
deriving DecidableEq, Repr

/-- Outcome of one file-system operation: success or a thrown error. -/
inductive FsRes
  | ok
  | err (e : FsErr)
deriving DecidableEq, Repr

/-- The `TokenData` interface of tokenStorage.ts. Optional fields are
`Option`; a `some 0` / `some ""` is present but falsy in JS. -/
structure TokenData where
  access_token : String
  refresh_token : Option String := none
  expires_at : Option Nat := none
  user_id : Option Nat := none
  shop_id : Option Nat := none
  shop_name : Option String := none
deriving DecidableEq, Repr

/-- Argument type of `saveTokens`: `TokenData & { expires_in?: number }`. -/
structure SaveInput where
  access_token : String
  refresh_token : Option String := none
  expires_at : Option Nat := none
  user_id : Option Nat := none
  shop_id : Option Nat := none
  shop_name : Option String := none
  expires_in : Option Nat := none
deriving DecidableEq, Repr

/-- State of the `TokenStorage` singleton: the `fileStorageEnabled` flag and
the contents of `tokens.json` (`none` when the file does not exist). -/
structure TokenStorage where
  fileStorageEnabled : Bool
  file : Option TokenData
deriving DecidableEq, Repr

/-- JS truthiness of an optional number: `undefined` and `0` are falsy. -/
def natTruthy : Option Nat → Bool
  | none => false
  | some n => n != 0

/-- JS truthiness of an optional string: `undefined` and `""` are falsy. -/
def strTruthy : Option String → Bool
  | none => false
  | some s => s != ""

/-- The `expires_at` computation at the top of `saveTokens`
(tokenStorage.ts lines 58-65): `expires_in` (truthy) wins, else a truthy
`expires_at` from the argument is preserved, else default one hour. -/
def newExpiresAt (t : SaveInput) (now : Nat) : Nat :=
  if natTruthy t.expires_in then now + t.expires_in.getD 0 * 1000
  else if natTruthy t.expires_at then t.expires_at.getD 0
  else now + 60 * 60 * 1000

/-- The `tokensToSave` object built by `saveTokens`
(tokenStorage.ts lines 67-74). -/
def tokensToSave (t : SaveInput) (now : Nat) : TokenData :=
  { access_token := t.access_token
    refresh_token := t.refresh_token
    user_id := t.user_id
    shop_id := t.shop_id
    shop_name := t.shop_name
    expires_at := some (newExpiresAt t now) }

/-- `TokenStorage.saveTokens` (tokenStorage.ts lines 51-90). When storage is
disabled it is a no-op; a successful write replaces the file; an
EROFS/EACCES write error disables storage without throwing; any other write
error is rethrown (state unchanged). -/
def saveTokens (st : TokenStorage) (t : SaveInput) (now : Nat) (w : FsRes) :
    Except FsErr TokenStorage :=
  if !st.fileStorageEnabled then Except.ok st
  else
    match w with
    | FsRes.ok => Except.ok { st with file := some (tokensToSave t now) }
    | FsRes.err FsErr.erofs => Except.ok { st with fileStorageEnabled := false }
    | FsRes.err FsErr.eacces => Except.ok { st with fileStorageEnabled := false }
    | FsRes.err FsErr.other => Except.error FsErr.other

/-- `TokenStorage.getTokens` (tokenStorage.ts lines 92-120). Returns `none`
when storage is disabled, the file is absent, the record is expired
(`expires_at` truthy and strictly before `now`), or the read throws; an
EROFS/EACCES read error additionally disables storage. Never throws. -/
def getTokens (st : TokenStorage) (now : Nat) (r : FsRes) :
    Option TokenData × TokenStorage :=
  if !st.fileStorageEnabled then (none, st)
  else
    match st.file with
    | none => (none, st)
    | some tok =>
      match r with
      | FsRes.ok =>
        if natTruthy tok.expires_at && tok.expires_at.getD 0 < now then (none, st)
        else (some tok, st)
      | FsRes.err FsErr.erofs => (none, { st with fileStorageEnabled := false })
      | FsRes.err FsErr.eacces => (none, { st with fileStorageEnabled := false })
      | FsRes.err FsErr.other => (none, st)

/-- `TokenStorage.loadPotentiallyExpiredTokens` (tokenStorage.ts lines
122-147): like `getTokens` but without the expiry check. Never throws. -/
def loadPotentiallyExpiredTokens (st : TokenStorage) (r : FsRes) :
    Option TokenData × TokenStorage :=
  if !st.fileStorageEnabled then (none, st)
  else
    match st.file with
    | none => (none, st)
    | some tok =>
      match r with
      | FsRes.ok => (some tok, st)
      | FsRes.err FsErr.erofs => (none, { st with fileStorageEnabled := false })
      | FsRes.err FsErr.eacces => (none, { st with fileStorageEnabled := false })
      | FsRes.err FsErr.other => (none, st)

/-- `TokenStorage.clearTokens` (tokenStorage.ts lines 149-167). Deletes the
file when present; EROFS/EACCES unlink errors disable storage without
throwing; any other unlink error is rethrown. -/
def clearTokens (st : TokenStorage) (w : FsRes) : Except FsErr TokenStorage :=
  if !st.fileStorageEnabled then Except.ok st
  else
    match st.file with
    | none => Except.ok st
    | some _ =>
      match w with
      | FsRes.ok => Except.ok { st with file := none }
      | FsRes.err FsErr.erofs => Except.ok { st with fileStorageEnabled := false }
      | FsRes.err FsErr.eacces => Except.ok { st with fileStorageEnabled := false }
      | FsRes.err FsErr.other => Except.error FsErr.other

/-- The token response of `EtsyApiClient.refreshToken` /
`getAccessTokenFromCode` (etsyApi.ts `OAuthTokenResponse`). -/
structure OAuthResp where
  access_token : String
  refresh_token : Option String := none
  expires_in : Nat
deriving DecidableEq, Repr

/-- Outcome of the `refreshToken` HTTP exchange: a response, or a thrown
`Failed to refresh token` error. -/
inductive RefreshOutcome
  | success (r : OAuthResp)
  | failure
deriving DecidableEq, Repr

/-- The refresh path of `EtsyMCPServer.getValidAccessToken`
(mcpServer.ts lines 492-523): load even-if-expired, and when a truthy
`refresh_token` exists, perform one refresh exchange; on success save the new
tokens (preserving `user_id`/`shop_id`/`shop_name`, passing
`expires_at := now + expires_in*1000`); on failure (including a rethrown
save error) clear tokens and return null. The `Nat` result counts refresh
exchanges performed. -/
def refreshPath (st : TokenStorage) (now : Nat) (r2 w c : FsRes)
    (ro : RefreshOutcome) :
    Except FsErr (Option String × TokenStorage × Nat) :=
  let p := loadPotentiallyExpiredTokens st r2
  match p.1 with
  | none => Except.ok (none, p.2, 0)
  | some pot =>
    if strTruthy pot.refresh_token then
      match ro with
      | RefreshOutcome.success resp =>
        let input : SaveInput :=
          { access_token := resp.access_token
            refresh_token := resp.refresh_token
            expires_at := some (now + resp.expires_in * 1000)
            user_id := pot.user_id
            shop_id := pot.shop_id
            shop_name := pot.shop_name }
        match saveTokens p.2 input now w with
        | Except.ok st3 => Except.ok (some resp.access_token, st3, 1)
        | Except.error _ =>
          match clearTokens p.2 c with
          | Except.ok st3 => Except.ok (none, st3, 1)
          | Except.error e => Except.error e
      | RefreshOutcome.failure =>
        match clearTokens p.2 c with
        | Except.ok st3 => Except.ok (none, st3, 1)
        | Except.error e => Except.error e
    else Except.ok (none, p.2, 0)

/-- `EtsyMCPServer.getValidAccessToken` (mcpServer.ts lines 483-524).
`r1`/`r2` are the file-read outcomes of `getTokens` and
`loadPotentiallyExpiredTokens`, `w` the write outcome of `saveTokens`, `c`
the unlink outcome of `clearTokens`. Returns the access token (or null) and
the number of refresh exchanges performed, or a thrown error. -/
def getValidAccessToken (st : TokenStorage) (now : Nat) (r1 r2 w c : FsRes)
    (ro : RefreshOutcome) :
    Except FsErr (Option String × TokenStorage × Nat) :=
  let p1 := getTokens st now r1
  match p1.1 with
  | some tk =>
    if tk.access_token != "" then Except.ok (some tk.access_token, p1.2, 0)
    else refreshPath p1.2 now r2 w c ro
  | none => refreshPath p1.2 now r2 w c ro

/-- One abstract operation on the token storage; used to express properties
that hold across any sequence of subsequent storage calls. -/
inductive TsOp
  | save (t : SaveInput) (now : Nat) (w : FsRes)
  | read (now : Nat) (r : FsRes)
  | readExpired (r : FsRes)
  | clear (w : FsRes)
deriving DecidableEq, Repr

/-- Storage state after executing one operation (a thrown save/clear error
leaves the state unchanged, as in the source). -/
def applyTsOp (st : TokenStorage) : TsOp → TokenStorage
  | TsOp.save t now w =>
    match saveTokens st t now w with
    | Except.ok s => s
    | Except.error _ => st
  | TsOp.read now r => (getTokens st now r).2
  | TsOp.readExpired r => (loadPotentiallyExpiredTokens st r).2
  | TsOp.clear w =>
    match clearTokens st w with
    | Except.ok s => s
    | Except.error _ => st

/-- Storage state after a sequence of operations. -/
def applyTsOps (st : TokenStorage) (ops : List TsOp) : TokenStorage :=
  ops.foldl applyTsOp st

/-- The `StateData` interface of oauthServer.ts. -/
structure StateData where
  codeVerifier : String
  createdAt : Nat
deriving DecidableEq, Repr

/-- The in-memory `stateStore : Map<string, StateData>` of `OAuthServer`,
modelled as an association list with unique keys maintained by the
operations. -/
abbrev StateStore := List (String × StateData)

/-- `stateStore.get(state)`. -/
def mapGet (m : StateStore) (k : String) : Option StateData :=
  (m.find? (fun p => p.1 == k)).map (fun p => p.2)

/-- `stateStore.delete(state)`. -/
def mapDelete (m : StateStore) (k : String) : StateStore :=
  m.filter (fun p => p.1 != k)

/-- `stateStore.set(state, data)`. -/
def mapSet (m : StateStore) (k : String) (v : StateData) : StateStore :=
  (k, v) :: mapDelete m k

/-- `stateTTL = 5 * 60 * 1000` (oauthServer.ts line 25). -/
def stateTTL : Nat := 5 * 60 * 1000

/-- One tick of the `cleanupExpiredStates` interval (oauthServer.ts lines
37-47): delete every entry with `now - createdAt > stateTTL`. -/
def cleanupExpiredStates (m : StateStore) (now : Nat) : StateStore :=
  m.filter (fun p => decide (now - p.2.createdAt ≤ stateTTL))

/-- The get-then-delete of the callback handler (oauthServer.ts lines
96-104): retrieve the entry for `state` and, when found, remove it. -/
def consume (m : StateStore) (s : String) : Option StateData × StateStore :=
  match mapGet m s with
  | none => (none, m)
  | some d => (some d, mapDelete m s)

/-- One abstract operation on the state store. -/
inductive StoreOp
  | put (k : String) (v : StateData)
  | consumeOp (k : String)
  | sweep (now : Nat)
deriving DecidableEq, Repr

/-- `op` does not insert an entry for key `s`. -/
def notPut (s : String) : StoreOp → Prop
  | StoreOp.put k _ => k ≠ s
  | StoreOp.consumeOp _ => True
  | StoreOp.sweep _ => True

/-- State-store contents after one operation. -/
def applyStoreOp (m : StateStore) : StoreOp → StateStore
  | StoreOp.put k v => mapSet m k v
  | StoreOp.consumeOp k => (consume m k).2
  | StoreOp.sweep now => cleanupExpiredStates m now

/-- State-store contents after a sequence of operations. -/
def applyStoreOps (m : StateStore) (ops : List StoreOp) : StateStore :=
  ops.foldl applyStoreOp m

/-- The standard base64 alphabet used by `Buffer.toString('base64')`. -/
def base64Alphabet : List Char :=
  "ABCDEFGHIJKLMNOPQRSTUVWXYZabcdefghijklmnopqrstuvwxyz0123456789+/".toList

/-- Character for one 6-bit group. -/
def b64Char (n : Nat) : Char := base64Alphabet.getD n 'A'

/-- Base64 encoding of a byte list (bytes as `Nat < 256`), with `=`
padding, as produced by `Buffer.toString('base64')`. -/
def base64Encode : List Nat → List Char
  | b1 :: b2 :: b3 :: rest =>
    b64Char (b1 / 4) :: b64Char (b1 % 4 * 16 + b2 / 16) ::
      b64Char (b2 % 16 * 4 + b3 / 64) :: b64Char (b3 % 64) :: base64Encode rest
  | [b1, b2] => [b64Char (b1 / 4), b64Char (b1 % 4 * 16 + b2 / 16),
      b64Char (b2 % 16 * 4), '=']
  | [b1] => [b64Char (b1 / 4), b64Char (b1 % 4 * 16), '=', '=']
  | [] => []

/-- The character class kept by `.replace(/[^a-zA-Z0-9]/g, '')`. -/
def isAlnumAscii (c : Char) : Bool :=
  ('a' ≤ c && c ≤ 'z') || ('A' ≤ c && c ≤ 'Z') || ('0' ≤ c && c ≤ '9')

/-- The `codeVerifier` computation of `EtsyApiClient.generatePKCE`
(etsyApi.ts lines 57-60), as a function of the 32 random bytes produced by
`crypto.randomBytes(32)`: base64-encode, strip every character outside
`[a-zA-Z0-9]`, then `.substring(0, 128)`. (The `codeChallenge` half of
`generatePKCE` is a SHA-256 digest and is not modelled; no claim concerns
it.) -/
def generatePKCEVerifier (bytes : List Nat) : List Char :=
  ((base64Encode bytes).filter isAlnumAscii).take 128

/-- JS `parseInt(s, 10)` restricted to the shapes that occur here (no sign,
no leading whitespace): the leading decimal digits, `NaN` (`none`) when
there are none. -/
def jsParseInt (s : String) : Option Nat :=
  let ds := s.toList.takeWhile (fun c => c.isDigit)
  if ds.isEmpty then none
  else some (ds.foldl (fun a c => a * 10 + (c.toNat - 48)) 0)

/-- The `user_id` parsing of `getAccessTokenFromCode` (etsyApi.ts lines
128-134): when the access token is truthy, `parseInt` of the segment before
the first `.` (`split('.')[0]`), `undefined` when that is `NaN`. -/
def parseUserIdFromToken (tok : String) : Option Nat :=
  if tok != "" then jsParseInt (String.mk (tok.toList.takeWhile (fun c => c != '.')))
  else none

/-- Shape of one shop object returned by the Etsy user-shops endpoint. -/
structure ShopInfo where
  shop_id : Nat
  shop_name : Option String := none
deriving DecidableEq, Repr

/-- Outcome of the best-effort `getUserShops` call in the callback handler:
a list-shaped response (`results` + `count`), a single shop object, a
response matching neither shape, or a thrown fetch error (caught and treated
as no shop). -/
inductive ShopsOutcome
  | listed (results : List ShopInfo) (count : Nat)
  | single (shop : ShopInfo)
  | malformed
  | fetchError
deriving DecidableEq, Repr

/-- The `shopToSet` selection of the callback handler (oauthServer.ts lines
128-143): prefer `results[0]` when `results` is present with `count > 0`,
else a single object with a truthy `shop_id`, else no shop. -/
def selectShop : ShopsOutcome → Option ShopInfo
  | ShopsOutcome.listed results count => if 0 < count then results.head? else none
  | ShopsOutcome.single shop => if shop.shop_id != 0 then some shop else none
  | ShopsOutcome.malformed => none
  | ShopsOutcome.fetchError => none

/-- Outcome of the `getAccessTokenFromCode` exchange in the callback
handler. -/
inductive ExchangeOutcome
  | success (r : OAuthResp)
  | failure
deriving DecidableEq, Repr

/-- Query parameters of a `GET /oauth/callback` request (each absent or a
string; array-valued query parameters are out of scope). -/
structure CallbackReq where
  code : Option String := none
  state : Option String := none
  error : Option String := none
deriving DecidableEq, Repr

/-- Response category rendered by the callback handler. -/
inductive CallbackResult
  | oauthError
  | missingParams
  | invalidState
  | exchangeFailed
  | authSuccess (userId : Option Nat) (shop : Option ShopInfo)
deriving DecidableEq, Repr

/-- The `GET /oauth/callback` handler (oauthServer.ts lines 73-167):
reject a truthy `error` parameter; reject missing/empty `code` or `state`;
look up `state` in the state store and reject when absent; delete the state
entry; then exchange the code (outcome `ex`); on success parse the user id,
best-effort select a shop, and save tokens (a rethrown save error is caught
by the handler's catch, rendering the exchange-failed page). Returns the
rendered result, the state store, the token storage, and the number of
code-exchange attempts performed. -/
def oauthCallback (req : CallbackReq) (store : StateStore) (ts : TokenStorage)
    (ex : ExchangeOutcome) (shops : ShopsOutcome) (now : Nat) (w : FsRes) :
    CallbackResult × StateStore × TokenStorage × Nat :=
  if strTruthy req.error then (CallbackResult.oauthError, store, ts, 0)
  else if !strTruthy req.code || !strTruthy req.state then
    (CallbackResult.missingParams, store, ts, 0)
  else
    let s := req.state.getD ""
    match mapGet store s with
    | none => (CallbackResult.invalidState, store, ts, 0)
    | some _ =>
      let store1 := mapDelete store s
      match ex with
      | ExchangeOutcome.failure => (CallbackResult.exchangeFailed, store1, ts, 1)
      | ExchangeOutcome.success resp =>
        let userId := parseUserIdFromToken resp.access_token
        let shopToSet : Option ShopInfo :=
          if natTruthy userId && resp.access_token != "" then selectShop shops
          else none
        let input : SaveInput :=
          { access_token := resp.access_token
            refresh_token := resp.refresh_token
            expires_in := some resp.expires_in
            user_id := userId
            shop_id := shopToSet.map (fun sh => sh.shop_id)
            shop_name := shopToSet.bind (fun sh => sh.shop_name) }
        match saveTokens ts input now w with
        | Except.ok ts1 => (CallbackResult.authSuccess userId shopToSet, store1, ts1, 1)
        | Except.error _ => (CallbackResult.exchangeFailed, store1, ts, 1)

-- Helper lemmas about the state store.

theorem mapGet_eq_none_iff (m : StateStore) (s : String) :
    mapGet m s = none ↔ ∀ p ∈ m, ¬(p.1 == s) := by
  simp [mapGet, Option.map_eq_none', List.find?_eq_none]

theorem mapGet_mapDelete_self (m : StateStore) (s : String) :
    mapGet (mapDelete m s) s = none := by
  rw [mapGet_eq_none_iff]
  intro p hp hbeq
  have h2 := (List.mem_filter.mp hp).2
  rw [eq_of_beq hbeq] at h2
  simp at h2

theorem mapGet_filter_none (m : StateStore) (s : String) (q : String × StateData → Bool)
    (h : mapGet m s = none) : mapGet (m.filter q) s = none := by
  rw [mapGet_eq_none_iff] at h ⊢
  intro p hp
  exact h p (List.mem_filter.mp hp).1

theorem mapGet_none_applyStoreOp (m : StateStore) (s : String) (op : StoreOp)
    (h : mapGet m s = none) (hop : notPut s op) :
    mapGet (applyStoreOp m op) s = none := by
  cases op with
  | put k v =>
    have hk : (k == s) = false := by
      simp only [notPut] at hop
      exact beq_eq_false_iff_ne.mpr hop
    have h2 := mapGet_filter_none m s (fun p => p.1 != k) h
    show mapGet (mapSet m k v) s = none
    unfold mapSet
    unfold mapGet at h2 ⊢
    unfold mapDelete
    simp only [List.find?, hk]
    exact h2
  | consumeOp k =>
    show mapGet (consume m k).2 s = none
    unfold consume
    cases mapGet m k with
    | none => exact h
    | some d => exact mapGet_filter_none m s _ h
  | sweep now =>
    exact mapGet_filter_none m s _ h

theorem mapGet_none_applyStoreOps (m : StateStore) (s : String) (ops : List StoreOp)
    (h : mapGet m s = none) (hops : ∀ op ∈ ops, notPut s op) :
    mapGet (applyStoreOps m ops) s = none := by
  induction ops generalizing m with
  | nil => exact h
  | cons op rest ih =>
    show mapGet (applyStoreOps (applyStoreOp m op) rest) s = none
    exact ih (applyStoreOp m op)
      (mapGet_none_applyStoreOp m s op h (hops op (List.mem_cons_self op rest)))
      (fun o ho => hops o (List.mem_cons_of_mem op ho))

/-- C4: once a state value has been consumed (looked up and deleted by the
callback handler), every subsequent consume of the same state value finds
nothing (NotFound), across any sequence of further store operations that do
not re-insert that state: state values are single-use. -/
theorem stateStore_single_use (m : StateStore) (s : String) (d : StateData)
    (m' : StateStore) (h : consume m s = (some d, m'))
    (ops : List StoreOp) (hops : ∀ op ∈ ops, notPut s op) :
    (consume (applyStoreOps m' ops) s).1 = none := by
  have hm' : mapGet m' s = none := by
    unfold consume at h
    cases hg : mapGet m s with
    | none => rw [hg] at h; cases h
    | some d0 =>
      rw [hg] at h
      have h' : (some d0, mapDelete m s) = ((some d : Option StateData), m') := h
      have hm : mapDelete m s = m' := congrArg Prod.snd h'
      rw [← hm]
      exact mapGet_mapDelete_self m s
  have habs := mapGet_none_applyStoreOps m' s ops hm' hops
  unfold consume
  rw [habs]

/-- Witness for C4 at a concrete consumed state. -/
theorem stateStore_single_use_witness :
    consume [("s", ⟨"v", 0⟩)] "s" = (some ⟨"v", 0⟩, []) ∧
    (consume (applyStoreOps [] []) "s").1 = none := by
  constructor
  · rfl
  · exact stateStore_single_use [("s", ⟨"v", 0⟩)] "s" ⟨"v", 0⟩ [] rfl []
      (fun op ho => absurd ho (List.not_mem_nil op))

/-- C5 COUNTEREXAMPLE: a PendingAuthState inserted at time T = 0 is still
present at query time T + TTL = 300000, even though every 60-second sweep
tick up to and including time 300000 has run: `cleanupExpiredStates` deletes
only entries with `now - createdAt` STRICTLY greater than the TTL, and
deletion happens only at sweep ticks. The claim that the entry is absent at
every query time ≥ T + TTL is therefore false. -/
theorem stateStore_ttl_counterexample :
    stateTTL = 300000 ∧
    mapGet (applyStoreOps [("s", ⟨"v", 0⟩)]
      [StoreOp.sweep 60000, StoreOp.sweep 120000, StoreOp.sweep 180000,
       StoreOp.sweep 240000, StoreOp.sweep 300000]) "s" = some ⟨"v", 0⟩ := by
  constructor
  · rfl
  · rfl

/-- C5 (amended): a PendingAuthState entry for state `s` is absent from the
store after any sweep executed at a time `t` STRICTLY later than
`createdAt + TTL`, whether or not it was consumed, and it stays absent
across any further operations that do not re-insert that state. (Since
sweeps run every 60 s, the entry is gone at the latest by the first sweep
tick after `createdAt + TTL`.) -/
theorem stateStore_ttl_expiry (m : StateStore) (s : String) (t : Nat)
    (h : ∀ d : StateData, (s, d) ∈ m → d.createdAt + stateTTL < t)
    (ops : List StoreOp) (hops : ∀ op ∈ ops, notPut s op) :
    mapGet (applyStoreOps (cleanupExpiredStates m t) ops) s = none := by
  have h0 : mapGet (cleanupExpiredStates m t) s = none := by
    rw [mapGet_eq_none_iff]
    intro p hp hbeq
    have hmem := List.mem_filter.mp hp
    have hage : t - p.2.createdAt ≤ stateTTL := by
      have := hmem.2
      simpa using this
    have hlt : p.2.createdAt + stateTTL < t := by
      have hps : p = (s, p.2) := by
        rw [← eq_of_beq hbeq]
      exact h p.2 (hps ▸ hmem.1)
    omega
  exact mapGet_none_applyStoreOps _ s ops h0 hops

/-- Witness for the amended C5 at a concrete entry and sweep time. -/
theorem stateStore_ttl_expiry_witness :
    (∀ d : StateData, ("s", d) ∈ ([("s", ⟨"v", 0⟩)] : StateStore) →
      d.createdAt + stateTTL < 300001) ∧
    mapGet (applyStoreOps (cleanupExpiredStates [("s", ⟨"v", 0⟩)] 300001) []) "s" =
      none := by
  have hyp : ∀ d : StateData, ("s", d) ∈ ([("s", ⟨"v", 0⟩)] : StateStore) →
      d.createdAt + stateTTL < 300001 := by
    intro d hd
    have hde : d = ⟨"v", 0⟩ := by
      simpa using hd
    rw [hde]
    decide
  exact ⟨hyp, stateStore_ttl_expiry [("s", ⟨"v", 0⟩)] "s" 300001 hyp []
    (fun op ho => absurd ho (List.not_mem_nil op))⟩

/-- C3 COUNTEREXAMPLE: at the exact boundary `now == expiresAt` (both 100),
`getTokens` returns the stored record, not null: the expiry test in
tokenStorage.ts line 106 is the STRICT comparison `expires_at < Date.now()`,
so the claim that the boundary is treated as expired is false. -/
theorem getValid_boundary_counterexample :
    (getTokens ⟨true, some ⟨"a", none, some 100, none, none, none⟩⟩ 100
      FsRes.ok).1 = some ⟨"a", none, some 100, none, none, none⟩ ∧
    (getTokens ⟨true, some ⟨"a", none, some 100, none, none, none⟩⟩ 100
      FsRes.ok).1 ≠ none := by
  constructor
  · rfl
  · decide

/-- C3 (amended): for every stored token record whose `expiresAt` is set and
nonzero, with storage enabled and a successful file read, `getValid`
(`getTokens`) returns null when `expiresAt < now` and returns the record
when `expiresAt ≥ now`; at the exact boundary `now == expiresAt` the record
is treated as still valid and returned. -/
theorem getValid_expiry (st : TokenStorage) (tk : TokenData) (ea now : Nat)
    (hen : st.fileStorageEnabled = true) (hf : st.file = some tk)
    (hea : tk.expires_at = some ea) (hpos : 0 < ea) :
    (ea < now → (getTokens st now FsRes.ok).1 = none) ∧
    (now ≤ ea → (getTokens st now FsRes.ok).1 = some tk) := by
  have hne : (ea != 0) = true := by
    simp only [bne_iff_ne, ne_eq]
    omega
  constructor
  · intro hlt
    simp [getTokens, hen, hf, hea, natTruthy, hne, hlt]
  · intro hge
    simp [getTokens, hen, hf, hea, natTruthy, hne, Nat.not_lt.mpr hge]

/-- Witness for the amended C3 on both sides of the boundary. -/
theorem getValid_expiry_witness :
    (100 < 101 →
      (getTokens ⟨true, some ⟨"a", none, some 100, none, none, none⟩⟩ 101
        FsRes.ok).1 = none) ∧
    (100 ≤ 100 →
      (getTokens ⟨true, some ⟨"a", none, some 100, none, none, none⟩⟩ 100
        FsRes.ok).1 = some ⟨"a", none, some 100, none, none, none⟩) := by
  have h1 := getValid_expiry ⟨true, some ⟨"a", none, some 100, none, none, none⟩⟩
    ⟨"a", none, some 100, none, none, none⟩ 100 101 rfl rfl rfl (by decide)
  have h2 := getValid_expiry ⟨true, some ⟨"a", none, some 100, none, none, none⟩⟩
    ⟨"a", none, some 100, none, none, none⟩ 100 100 rfl rfl rfl (by decide)
  exact ⟨fun _ => h1.1 (by decide), fun _ => h2.2 (by decide)⟩

/-- C8 COUNTEREXAMPLE: a save whose input carries neither `expires_in` nor
`expires_at` (here: a bare access token saved at `now = 1000`) persists
`expires_at = 1000 + 3600000` (the one-hour default of tokenStorage.ts line
64), which is neither `now + expires_in*1000` (no `expires_in` was supplied)
nor a caller-supplied `expiresAt` (none was supplied): the claim's
two-case disjunction for the persisted value is false. -/
theorem saveTokens_expiresAt_counterexample :
    ∃ st' : TokenStorage,
      saveTokens ⟨true, none⟩ ⟨"a", none, none, none, none, none, none⟩ 1000
        FsRes.ok = Except.ok st' ∧
      ∃ r : TokenData, st'.file = some r ∧ r.expires_at = some 3601000 ∧
        ¬((∃ ei, (⟨"a", none, none, none, none, none, none⟩ : SaveInput).expires_in
              = some ei ∧ r.expires_at = some (1000 + ei * 1000)) ∨
          (∃ ea, (⟨"a", none, none, none, none, none, none⟩ : SaveInput).expires_at
              = some ea ∧ r.expires_at = some ea)) := by
  refine ⟨_, rfl, tokensToSave ⟨"a", none, none, none, none, none, none⟩ 1000,
    rfl, rfl, ?_⟩
  rintro (⟨ei, hei, _⟩ | ⟨ea, hea, _⟩)
  · exact Option.noConfusion hei
  · exact Option.noConfusion hea

/-- C8 (amended): after every save that actually persists (storage enabled,
write succeeds), the record's `expiresAt` is set — never unset — and its
value is `now + expires_in*1000` when the caller supplies a nonzero
`expires_in`, else the caller-supplied nonzero `expiresAt` of the partial
record, else the one-hour default `now + 3600000`. -/
theorem saveTokens_expiresAt (st : TokenStorage) (t : SaveInput) (now : Nat)
    (hen : st.fileStorageEnabled = true) :
    ∃ st', saveTokens st t now FsRes.ok = Except.ok st' ∧
      ∃ r : TokenData, st'.file = some r ∧
        r.expires_at = some (newExpiresAt t now) ∧
        ((∃ ei, t.expires_in = some ei ∧ ei ≠ 0 ∧
            newExpiresAt t now = now + ei * 1000) ∨
         (natTruthy t.expires_in = false ∧
           ∃ ea, t.expires_at = some ea ∧ ea ≠ 0 ∧ newExpiresAt t now = ea) ∨
         (natTruthy t.expires_in = false ∧ natTruthy t.expires_at = false ∧
           newExpiresAt t now = now + 60 * 60 * 1000)) := by
  refine ⟨{ st with file := some (tokensToSave t now) }, by simp [saveTokens, hen],
    tokensToSave t now, rfl, rfl, ?_⟩
  by_cases hin : natTruthy t.expires_in = true
  · left
    cases hi : t.expires_in with
    | none => rw [hi] at hin; simp [natTruthy] at hin
    | some ei =>
      have hin2 : natTruthy (some ei) = true := hi ▸ hin
      have hne : ei ≠ 0 := by simpa [natTruthy] using hin2
      exact ⟨ei, rfl, hne, by simp [newExpiresAt, hi, hin2]⟩
  · have hin' : natTruthy t.expires_in = false := by
      simpa using hin
    by_cases hat : natTruthy t.expires_at = true
    · right; left
      cases ha : t.expires_at with
      | none => rw [ha] at hat; simp [natTruthy] at hat
      | some ea =>
        have hat2 : natTruthy (some ea) = true := ha ▸ hat
        have hne : ea ≠ 0 := by simpa [natTruthy] using hat2
        exact ⟨hin', ea, rfl, hne, by simp [newExpiresAt, hin', ha, hat2]⟩
    · have hat' : natTruthy t.expires_at = false := by
        simpa using hat
      right; right
      exact ⟨hin', hat', by simp [newExpiresAt, hin', hat']⟩

/-- Witness for the amended C8 at a concrete save carrying `expires_in`. -/
theorem saveTokens_expiresAt_witness :
    ∃ st', saveTokens ⟨true, none⟩ ⟨"a", some "r", none, some 7, none, none, some 3600⟩
        1000 FsRes.ok = Except.ok st' ∧
      ∃ r : TokenData, st'.file = some r ∧
        r.expires_at = some (newExpiresAt ⟨"a", some "r", none, some 7, none, none, some 3600⟩ 1000) ∧
        ((∃ ei, (⟨"a", some "r", none, some 7, none, none, some 3600⟩ : SaveInput).expires_in = some ei ∧ ei ≠ 0 ∧
            newExpiresAt ⟨"a", some "r", none, some 7, none, none, some 3600⟩ 1000 = 1000 + ei * 1000) ∨
         (natTruthy (⟨"a", some "r", none, some 7, none, none, some 3600⟩ : SaveInput).expires_in = false ∧
           ∃ ea, (⟨"a", some "r", none, some 7, none, none, some 3600⟩ : SaveInput).expires_at = some ea ∧ ea ≠ 0 ∧
             newExpiresAt ⟨"a", some "r", none, some 7, none, none, some 3600⟩ 1000 = ea) ∨
         (natTruthy (⟨"a", some "r", none, some 7, none, none, some 3600⟩ : SaveInput).expires_in = false ∧
           natTruthy (⟨"a", some "r", none, some 7, none, none, some 3600⟩ : SaveInput).expires_at = false ∧
           newExpiresAt ⟨"a", some "r", none, some 7, none, none, some 3600⟩ 1000 = 1000 + 60 * 60 * 1000)) :=
  saveTokens_expiresAt ⟨true, none⟩ ⟨"a", some "r", none, some 7, none, none, some 3600⟩ 1000 rfl

-- Helper lemmas: a disabled token store is inert.

theorem applyTsOp_disabled (st : TokenStorage) (op : TsOp)
    (h : st.fileStorageEnabled = false) : applyTsOp st op = st := by
  cases op <;>
    simp [applyTsOp, saveTokens, getTokens, loadPotentiallyExpiredTokens,
      clearTokens, h]

theorem applyTsOps_disabled (st : TokenStorage) (ops : List TsOp)
    (h : st.fileStorageEnabled = false) : applyTsOps st ops = st := by
  induction ops with
  | nil => rfl
  | cons op rest ih =>
    show applyTsOps (applyTsOp st op) rest = st
    rw [applyTsOp_disabled st op h]
    exact ih

/-- C9: when a save fails with a permission (EACCES) or read-only-filesystem
(EROFS) error, `saveTokens` completes without throwing and the store enters
a disabled mode that persists across every subsequent operation: every later
`getTokens` and `loadPotentiallyExpiredTokens` returns null and every later
`saveTokens` completes without throwing as a no-op. -/
theorem storage_disabled_mode (st : TokenStorage) (t : SaveInput) (now : Nat)
    (e : FsErr) (hen : st.fileStorageEnabled = true) (he : e ≠ FsErr.other) :
    ∃ st', saveTokens st t now (FsRes.err e) = Except.ok st' ∧
      st'.fileStorageEnabled = false ∧
      ∀ ops : List TsOp,
        (applyTsOps st' ops).fileStorageEnabled = false ∧
        (∀ now2 r, (getTokens (applyTsOps st' ops) now2 r).1 = none) ∧
        (∀ r, (loadPotentiallyExpiredTokens (applyTsOps st' ops) r).1 = none) ∧
        (∀ t2 now2 w, saveTokens (applyTsOps st' ops) t2 now2 w =
          Except.ok (applyTsOps st' ops)) := by
  have hsave : saveTokens st t now (FsRes.err e) =
      Except.ok { st with fileStorageEnabled := false } := by
    cases e with
    | erofs => simp [saveTokens, hen]
    | eacces => simp [saveTokens, hen]
    | other => exact absurd rfl he
  refine ⟨{ st with fileStorageEnabled := false }, hsave, rfl, ?_⟩
  intro ops
  rw [applyTsOps_disabled _ ops rfl]
  exact ⟨rfl, fun now2 r => by simp [getTokens],
    fun r => by simp [loadPotentiallyExpiredTokens],
    fun t2 now2 w => by simp [saveTokens]⟩

/-- Witness for C9 at a concrete enabled store and an EROFS write failure. -/
theorem storage_disabled_mode_witness :
    ∃ st', saveTokens ⟨true, none⟩ ⟨"a", none, none, none, none, none, none⟩ 5
        (FsRes.err FsErr.erofs) = Except.ok st' ∧
      st'.fileStorageEnabled = false ∧
      ∀ ops : List TsOp,
        (applyTsOps st' ops).fileStorageEnabled = false ∧
        (∀ now2 r, (getTokens (applyTsOps st' ops) now2 r).1 = none) ∧
        (∀ r, (loadPotentiallyExpiredTokens (applyTsOps st' ops) r).1 = none) ∧
        (∀ t2 now2 w, saveTokens (applyTsOps st' ops) t2 now2 w =
          Except.ok (applyTsOps st' ops)) :=
  storage_disabled_mode ⟨true, none⟩ ⟨"a", none, none, none, none, none, none⟩ 5
    FsErr.erofs rfl (by decide)

/-- C1: for a stored record with a (truthy) refreshToken and an expiresAt in
the past, `getValidAccessToken` performs exactly one refresh exchange (on
success and on failure alike) and, when the exchange succeeds, returns the
new accessToken and persists a record whose `user_id`, `shop_id` and
`shop_name` are unchanged from the record stored before the refresh. -/
theorem refresh_preserves_identity (st : TokenStorage) (tk : TokenData)
    (ea now : Nat) (rt : String) (resp : OAuthResp)
    (hen : st.fileStorageEnabled = true) (hf : st.file = some tk)
    (hea : tk.expires_at = some ea) (hpos : 0 < ea) (hlt : ea < now)
    (hrt : tk.refresh_token = some rt) (hrtne : rt ≠ "") :
    (∃ st' tk',
      getValidAccessToken st now FsRes.ok FsRes.ok FsRes.ok FsRes.ok
        (RefreshOutcome.success resp) =
          Except.ok (some resp.access_token, st', 1) ∧
      st'.file = some tk' ∧
      tk'.access_token = resp.access_token ∧
      tk'.user_id = tk.user_id ∧ tk'.shop_id = tk.shop_id ∧
      tk'.shop_name = tk.shop_name) ∧
    (∃ q, getValidAccessToken st now FsRes.ok FsRes.ok FsRes.ok FsRes.ok
        RefreshOutcome.failure = Except.ok q ∧ q.2.2 = 1) := by
  have hne : (ea != 0) = true := by
    simp only [bne_iff_ne, ne_eq]
    omega
  have hget : getTokens st now FsRes.ok = (none, st) := by
    simp [getTokens, hen, hf, hea, natTruthy, hne, hlt]
  have hload : loadPotentiallyExpiredTokens st FsRes.ok = (some tk, st) := by
    simp [loadPotentiallyExpiredTokens, hen, hf]
  have hst : strTruthy tk.refresh_token = true := by
    simp [strTruthy, hrt, hrtne]
  constructor
  · refine ⟨{ st with file := some (tokensToSave
        ⟨resp.access_token, resp.refresh_token,
          some (now + resp.expires_in * 1000), tk.user_id, tk.shop_id,
          tk.shop_name, none⟩ now) },
      tokensToSave ⟨resp.access_token, resp.refresh_token,
        some (now + resp.expires_in * 1000), tk.user_id, tk.shop_id,
        tk.shop_name, none⟩ now, ?_, rfl, rfl, rfl, rfl, rfl⟩
    simp [getValidAccessToken, hget, refreshPath, hload, hst, saveTokens, hen]
  · refine ⟨(none, { st with file := none }, 1), ?_, rfl⟩
    simp [getValidAccessToken, hget, refreshPath, hload, hst, clearTokens,
      hen, hf]

/-- Witness for C1 at a concrete expired record and refresh response. -/
theorem refresh_preserves_identity_witness :
    (∃ st' tk',
      getValidAccessToken ⟨true, some ⟨"old", some "r", some 100, some 7,
          some 8, some "shop"⟩⟩ 1000 FsRes.ok FsRes.ok FsRes.ok FsRes.ok
        (RefreshOutcome.success ⟨"new", some "r2", 3600⟩) =
          Except.ok (some (OAuthResp.mk "new" (some "r2") 3600).access_token,
            st', 1) ∧
      st'.file = some tk' ∧
      tk'.access_token = (OAuthResp.mk "new" (some "r2") 3600).access_token ∧
      tk'.user_id = (TokenData.mk "old" (some "r") (some 100) (some 7)
        (some 8) (some "shop")).user_id ∧
      tk'.shop_id = (TokenData.mk "old" (some "r") (some 100) (some 7)
        (some 8) (some "shop")).shop_id ∧
      tk'.shop_name = (TokenData.mk "old" (some "r") (some 100) (some 7)
        (some 8) (some "shop")).shop_name) ∧
    (∃ q, getValidAccessToken ⟨true, some ⟨"old", some "r", some 100, some 7,
          some 8, some "shop"⟩⟩ 1000 FsRes.ok FsRes.ok FsRes.ok FsRes.ok
        RefreshOutcome.failure = Except.ok q ∧ q.2.2 = 1) :=
  refresh_preserves_identity ⟨true, some ⟨"old", some "r", some 100, some 7,
      some 8, some "shop"⟩⟩ ⟨"old", some "r", some 100, some 7, some 8,
      some "shop"⟩ 100 1000 "r" ⟨"new", some "r2", 3600⟩ rfl rfl rfl
    (by decide) (by decide) rfl (by decide)

/-- C2: for a stored record that is expired (so `getValid` yields null) but
carries a truthy refreshToken, a failing refresh exchange makes
`getValidAccessToken` return null (after exactly one exchange), and
afterwards both `getTokens` (getValid) and `loadPotentiallyExpiredTokens`
(getEvenIfExpired) return null for every later query time and read outcome:
the persisted record is fully cleared. -/
theorem refresh_failure_clears (st : TokenStorage) (tk : TokenData)
    (ea now : Nat) (rt : String)
    (hen : st.fileStorageEnabled = true) (hf : st.file = some tk)
    (hea : tk.expires_at = some ea) (hpos : 0 < ea) (hlt : ea < now)
    (hrt : tk.refresh_token = some rt) (hrtne : rt ≠ "") :
    ∃ st', getValidAccessToken st now FsRes.ok FsRes.ok FsRes.ok FsRes.ok
        RefreshOutcome.failure = Except.ok (none, st', 1) ∧
      st'.file = none ∧
      (∀ now2 r, (getTokens st' now2 r).1 = none) ∧
      (∀ r, (loadPotentiallyExpiredTokens st' r).1 = none) := by
  have hne : (ea != 0) = true := by
    simp only [bne_iff_ne, ne_eq]
    omega
  have hget : getTokens st now FsRes.ok = (none, st) := by
    simp [getTokens, hen, hf, hea, natTruthy, hne, hlt]
  have hload : loadPotentiallyExpiredTokens st FsRes.ok = (some tk, st) := by
    simp [loadPotentiallyExpiredTokens, hen, hf]
  have hst : strTruthy tk.refresh_token = true := by
    simp [strTruthy, hrt, hrtne]
  refine ⟨{ st with file := none }, ?_, rfl, ?_, ?_⟩
  · simp [getValidAccessToken, hget, refreshPath, hload, hst, clearTokens,
      hen, hf]
  · intro now2 r
    simp [getTokens]
  · intro r
    simp [loadPotentiallyExpiredTokens]

/-- Witness for C2 at a concrete expired record. -/
theorem refresh_failure_clears_witness :
    ∃ st', getValidAccessToken ⟨true, some ⟨"old", some "r", some 100, some 7,
        some 8, some "shop"⟩⟩ 1000 FsRes.ok FsRes.ok FsRes.ok FsRes.ok
        RefreshOutcome.failure = Except.ok (none, st', 1) ∧
      st'.file = none ∧
      (∀ now2 r, (getTokens st' now2 r).1 = none) ∧
      (∀ r, (loadPotentiallyExpiredTokens st' r).1 = none) :=
  refresh_failure_clears ⟨true, some ⟨"old", some "r", some 100, some 7,
      some 8, some "shop"⟩⟩ ⟨"old", some "r", some 100, some 7, some 8,
      some "shop"⟩ 100 1000 "r" rfl rfl rfl (by decide) (by decide) rfl
    (by decide)

/-- C6 COUNTEREXAMPLE: `getValidAccessToken` CAN throw. With an expired
record carrying refresh token "r", a failing refresh exchange, and a
token-file unlink that fails with an error other than EROFS/EACCES (e.g.
EPERM/EBUSY), `clearTokens` rethrows from inside the catch block of
`getValidAccessToken` (mcpServer.ts line 517), and the exception propagates
to the caller instead of a null return. -/
theorem getValidAccessToken_throw_counterexample :
    getValidAccessToken ⟨true, some ⟨"old", some "r", some 100, none, none,
        none⟩⟩ 1000 FsRes.ok FsRes.ok FsRes.ok (FsRes.err FsErr.other)
      RefreshOutcome.failure = Except.error FsErr.other := by
  rfl

-- Helper lemmas: which operations can throw.

theorem clearTokens_isOk (st : TokenStorage) (c : FsRes)
    (hc : c ≠ FsRes.err FsErr.other) :
    ∃ s, clearTokens st c = Except.ok s := by
  unfold clearTokens
  cases hen : st.fileStorageEnabled with
  | false => exact ⟨st, rfl⟩
  | true =>
    cases st.file with
    | none => exact ⟨st, rfl⟩
    | some tk =>
      cases c with
      | ok => exact ⟨_, rfl⟩
      | err e =>
        cases e with
        | erofs => exact ⟨_, rfl⟩
        | eacces => exact ⟨_, rfl⟩
        | other => exact absurd rfl hc

theorem refreshPath_isOk (st : TokenStorage) (now : Nat) (r2 w c : FsRes)
    (ro : RefreshOutcome) (hc : c ≠ FsRes.err FsErr.other) :
    ∃ v, refreshPath st now r2 w c ro = Except.ok v := by
  obtain ⟨sc, hsc⟩ := clearTokens_isOk (loadPotentiallyExpiredTokens st r2).2 c hc
  cases hp : (loadPotentiallyExpiredTokens st r2).1 with
  | none =>
    exact ⟨(none, (loadPotentiallyExpiredTokens st r2).2, 0),
      by simp [refreshPath, hp]⟩
  | some pot =>
    cases hrt : strTruthy pot.refresh_token with
    | false =>
      exact ⟨(none, (loadPotentiallyExpiredTokens st r2).2, 0),
        by simp [refreshPath, hp, hrt]⟩
    | true =>
      cases ro with
      | failure =>
        exact ⟨(none, sc, 1), by simp [refreshPath, hp, hrt, hsc]⟩
      | success resp =>
        cases hsv : saveTokens (loadPotentiallyExpiredTokens st r2).2
            ⟨resp.access_token, resp.refresh_token,
              some (now + resp.expires_in * 1000), pot.user_id, pot.shop_id,
              pot.shop_name, none⟩ now w with
        | ok st3 =>
          exact ⟨(some resp.access_token, st3, 1),
            by simp [refreshPath, hp, hrt, hsv]⟩
        | error e =>
          exact ⟨(none, sc, 1), by simp [refreshPath, hp, hrt, hsv, hsc]⟩

/-- C6 (amended): for every storage state, every read/write outcome, and
every outcome of the refresh exchange, `getValidAccessToken` completes
without throwing — signalling absence of a usable token by returning null —
PROVIDED the token-file clear performed after a failed refresh does not
itself fail with a filesystem error other than EROFS/EACCES; a non-permission
unlink error is rethrown out of the function (see the counterexample). -/
theorem getValidAccessToken_no_throw (st : TokenStorage) (now : Nat)
    (r1 r2 w c : FsRes) (ro : RefreshOutcome)
    (hc : c ≠ FsRes.err FsErr.other) :
    ∃ v, getValidAccessToken st now r1 r2 w c ro = Except.ok v := by
  cases hg : (getTokens st now r1).1 with
  | none =>
    obtain ⟨v, hv⟩ := refreshPath_isOk (getTokens st now r1).2 now r2 w c ro hc
    exact ⟨v, by simp [getValidAccessToken, hg, hv]⟩
  | some tk =>
    cases hta : tk.access_token != "" with
    | false =>
      obtain ⟨v, hv⟩ := refreshPath_isOk (getTokens st now r1).2 now r2 w c ro hc
      exact ⟨v, by simp [getValidAccessToken, hg, hta, hv]⟩
    | true =>
      exact ⟨(some tk.access_token, (getTokens st now r1).2, 0),
        by simp [getValidAccessToken, hg, hta]⟩

/-- Witness for the amended C6 at a concrete state with a successful clear
outcome. -/
theorem getValidAccessToken_no_throw_witness :
    ∃ v, getValidAccessToken ⟨true, some ⟨"old", some "r", some 100, none,
        none, none⟩⟩ 1000 FsRes.ok FsRes.ok FsRes.ok FsRes.ok
      RefreshOutcome.failure = Except.ok v :=
  getValidAccessToken_no_throw ⟨true, some ⟨"old", some "r", some 100, none,
      none, none⟩⟩ 1000 FsRes.ok FsRes.ok FsRes.ok FsRes.ok
    RefreshOutcome.failure (by decide)

/-- C7 COUNTEREXAMPLE: `crypto.randomBytes(32)` yields 32 bytes, whose
base64 encoding has only 44 characters (43 plus one `=` pad), so after
stripping non-alphanumerics the verifier has AT MOST 43 characters — never
128. At the all-zero byte input the verifier is 43 characters, and at the
all-0xFF input it is a single character "8" (every `/` of the encoding is
stripped), so even the 43-character lower bound of the data model fails. -/
theorem pkce_length_counterexample :
    (List.replicate 32 0).length = 32 ∧
    (∀ b ∈ List.replicate 32 (0 : Nat), b < 256) ∧
    (generatePKCEVerifier (List.replicate 32 0)).length = 43 ∧
    (generatePKCEVerifier (List.replicate 32 0)).length ≠ 128 ∧
    (generatePKCEVerifier (List.replicate 32 255)).length = 1 := by
  refine ⟨rfl, by decide, by decide, by decide, by decide⟩

-- Helper lemmas for the verifier length bound.

theorem length_filter_cons_le (p : Char → Bool) (a : Char) (l : List Char) :
    ((a :: l).filter p).length ≤ 1 + (l.filter p).length := by
  rw [List.filter_cons]
  split
  · simp only [List.length_cons]
    omega
  · omega

theorem filter_base64Encode_len (l : List Nat) (h : l.length % 3 = 2) :
    ((base64Encode l).filter isAlnumAscii).length ≤ l.length / 3 * 4 + 3 := by
  induction l using base64Encode.induct with
  | case1 b1 b2 b3 rest ih =>
    have hr : rest.length % 3 = 2 := by
      simp only [List.length_cons] at h
      omega
    have hrec := ih hr
    have h1 := length_filter_cons_le isAlnumAscii (b64Char (b1 / 4))
      (b64Char (b1 % 4 * 16 + b2 / 16) :: b64Char (b2 % 16 * 4 + b3 / 64) ::
        b64Char (b3 % 64) :: base64Encode rest)
    have h2 := length_filter_cons_le isAlnumAscii (b64Char (b1 % 4 * 16 + b2 / 16))
      (b64Char (b2 % 16 * 4 + b3 / 64) :: b64Char (b3 % 64) :: base64Encode rest)
    have h3 := length_filter_cons_le isAlnumAscii (b64Char (b2 % 16 * 4 + b3 / 64))
      (b64Char (b3 % 64) :: base64Encode rest)
    have h4 := length_filter_cons_le isAlnumAscii (b64Char (b3 % 64))
      (base64Encode rest)
    have hdiv : (b1 :: b2 :: b3 :: rest).length / 3 = rest.length / 3 + 1 := by
      simp only [List.length_cons]
      rw [show rest.length + 1 + 1 + 1 = rest.length + 3 from by omega]
      exact Nat.add_div_right rest.length (by norm_num)
    rw [show base64Encode (b1 :: b2 :: b3 :: rest) = b64Char (b1 / 4) ::
      b64Char (b1 % 4 * 16 + b2 / 16) :: b64Char (b2 % 16 * 4 + b3 / 64) ::
      b64Char (b3 % 64) :: base64Encode rest from rfl]
    rw [hdiv]
    omega
  | case2 b1 b2 =>
    have hpad : ([('=' : Char)].filter isAlnumAscii).length = 0 := by decide
    have h1 := length_filter_cons_le isAlnumAscii (b64Char (b1 / 4))
      [b64Char (b1 % 4 * 16 + b2 / 16), b64Char (b2 % 16 * 4), '=']
    have h2 := length_filter_cons_le isAlnumAscii (b64Char (b1 % 4 * 16 + b2 / 16))
      [b64Char (b2 % 16 * 4), '=']
    have h3 := length_filter_cons_le isAlnumAscii (b64Char (b2 % 16 * 4)) ['=']
    rw [show base64Encode [b1, b2] = [b64Char (b1 / 4),
      b64Char (b1 % 4 * 16 + b2 / 16), b64Char (b2 % 16 * 4), '='] from rfl]
    simp only [List.length_cons] at *
    omega
  | case3 b1 => simp at h
  | case4 => simp at h

/-- C7 (amended): for every 32-byte random input, the codeVerifier produced
by `generatePKCE` consists only of characters from the alphabet
`[A-Za-z0-9]` and has length AT MOST 43 (so, in particular, at most 128; it
is not "exactly 128 characters", and can be shorter than 43 — see the
counterexample). -/
theorem pkce_verifier_alphabet_bound (bytes : List Nat)
    (hlen : bytes.length = 32) :
    (generatePKCEVerifier bytes).length ≤ 43 ∧
    ∀ ch ∈ generatePKCEVerifier bytes, isAlnumAscii ch = true := by
  constructor
  · have h := filter_base64Encode_len bytes (by rw [hlen])
    rw [hlen] at h
    have htake : (generatePKCEVerifier bytes).length ≤
        ((base64Encode bytes).filter isAlnumAscii).length := by
      rw [show generatePKCEVerifier bytes =
        ((base64Encode bytes).filter isAlnumAscii).take 128 from rfl]
      rw [List.length_take]
      omega
    omega
  · intro ch hch
    have hch' : ch ∈ ((base64Encode bytes).filter isAlnumAscii).take 128 := hch
    exact List.of_mem_filter (List.mem_of_mem_take hch')

/-- Witness for the amended C7 at the all-zero byte input. -/
theorem pkce_verifier_alphabet_bound_witness :
    (generatePKCEVerifier (List.replicate 32 0)).length ≤ 43 ∧
    ∀ ch ∈ generatePKCEVerifier (List.replicate 32 0), isAlnumAscii ch = true :=
  pkce_verifier_alphabet_bound (List.replicate 32 0) rfl

/-- C10: in the callback handler the pending state entry is deleted BEFORE
the code-for-token exchange is attempted, so when the exchange fails the
state is already consumed (one exchange attempt, entry gone), and replaying
the identical callback — same code and state, regardless of storage state or
exchange outcome — is rejected as an invalid/expired state with zero further
exchange attempts. -/
theorem callback_state_deleted_before_exchange (req : CallbackReq)
    (store : StateStore) (ts : TokenStorage) (shops : ShopsOutcome)
    (now : Nat) (w : FsRes) (co s : String) (d : StateData)
    (herr : req.error = none) (hc : req.code = some co) (hcne : co ≠ "")
    (hs : req.state = some s) (hsne : s ≠ "") (hd : mapGet store s = some d) :
    oauthCallback req store ts ExchangeOutcome.failure shops now w =
      (CallbackResult.exchangeFailed, mapDelete store s, ts, 1) ∧
    mapGet (mapDelete store s) s = none ∧
    (∀ ts2 ex2 shops2 now2 w2,
      oauthCallback req (mapDelete store s) ts2 ex2 shops2 now2 w2 =
        (CallbackResult.invalidState, mapDelete store s, ts2, 0)) := by
  have herrf : strTruthy req.error = false := by simp [strTruthy, herr]
  have hct : strTruthy req.code = true := by simp [strTruthy, hc, hcne]
  have hstt : strTruthy req.state = true := by simp [strTruthy, hs, hsne]
  have hgd : req.state.getD "" = s := by simp [hs]
  refine ⟨?_, mapGet_mapDelete_self store s, ?_⟩
  · simp [oauthCallback, herrf, hct, hstt, hgd, hd]
  · intro ts2 ex2 shops2 now2 w2
    simp [oauthCallback, herrf, hct, hstt, hgd, mapGet_mapDelete_self store s]

/-- Witness for C10 at a concrete pending state and callback request. -/
theorem callback_state_deleted_before_exchange_witness :
    oauthCallback ⟨some "co", some "s", none⟩ [("s", ⟨"v", 0⟩)] ⟨true, none⟩
        ExchangeOutcome.failure ShopsOutcome.fetchError 5 FsRes.ok =
      (CallbackResult.exchangeFailed, mapDelete [("s", ⟨"v", 0⟩)] "s",
        ⟨true, none⟩, 1) ∧
    mapGet (mapDelete [("s", ⟨"v", 0⟩)] "s") "s" = none ∧
    (∀ ts2 ex2 shops2 now2 w2,
      oauthCallback ⟨some "co", some "s", none⟩ (mapDelete [("s", ⟨"v", 0⟩)] "s")
          ts2 ex2 shops2 now2 w2 =
        (CallbackResult.invalidState, mapDelete [("s", ⟨"v", 0⟩)] "s", ts2, 0)) :=
  callback_state_deleted_before_exchange ⟨some "co", some "s", none⟩
    [("s", ⟨"v", 0⟩)] ⟨true, none⟩ ShopsOutcome.fetchError 5 FsRes.ok "co" "s"
    ⟨"v", 0⟩ rfl rfl (by decide) rfl (by decide) rfl
